import Mathlib

/-!
Verification development for the calendar application's text-to-structured-event
normalization core: the shared date/time normalizer (`src/shared/datetime.ts`),
the client assistant and server webhook create/update paths, the address
extraction memos of the event-detail view, and the FlightAware correlator.

Conventions of the shallow embedding:
* A JavaScript `Date` object is a `JSVal`: a valid instant is the integer count
  of milliseconds since the Unix epoch; an Invalid Date (internal time value
  NaN) is `JSVal.invalid`; the `null` returned by the parse helpers is
  `JSVal.nullv`.  Arithmetic and comparisons propagate NaN exactly as in JS
  (every ordered comparison with NaN is false).
* The ambient runtime state the code reads is passed explicitly: `tz` is the
  runtime's local UTC offset in minutes east (what `getFullYear`/`getMonth`/
  `getDate` and the `new Date(y, m, d, ...)` constructor consult, modeled as a
  fixed offset), and `now` is the instant returned by `new Date()`.
* Raw string inputs are abstracted by which of the source's regular expressions
  they match, together with the digit groups the match captures (`RawTime`,
  `DescInfo`, `DescLine`, `TsVal`).  Each constructor's comment names the
  pattern it stands for.
-/

namespace CalendarApp

/-- A JavaScript `Date`-or-`null` value as flowing through the normalizer:
`nullv` is the literal `null` returned by failed parses, `invalid` is an
Invalid Date object (truthy, time value NaN), `valid ms` is a real instant. -/
inductive JSVal where
  | nullv
  | invalid
  | valid (ms : Int)
deriving DecidableEq, Repr

def msPerMinute : Int := 60000

def msPerHour : Int := 3600000

def msPerDay : Int := 86400000

/-- The fixed Asia/Taipei offset (+08:00) the source appends to offset-less
date/time strings. -/
def taipeiOffsetMin : Int := 480

/-- Proleptic-Gregorian day number of civil date y-m-d with day 0 = 1970-01-01
(valid for months 1..12; days may exceed the month length, rolling over, which
is exactly how ECMAScript `MakeDay` treats an out-of-range day argument). -/
def daysFromCivil (y m d : Int) : Int :=
  let y1 : Int := if m ≤ 2 then y - 1 else y
  let era : Int := Int.ediv y1 400
  let yoe : Int := y1 - era * 400
  let mp : Int := if m > 2 then m - 3 else m + 9
  let doy : Int := Int.ediv (153 * mp + 2) 5 + d - 1
  let doe : Int := yoe * 365 + Int.ediv yoe 4 - Int.ediv yoe 100 + doy
  era * 146097 + doe - 719468

def isLeapYear (y : Int) : Bool :=
  (y % 4 == 0 && y % 100 != 0) || y % 400 == 0

def daysInMonth (y m : Int) : Int :=
  if m = 2 then (if isLeapYear y then 29 else 28)
  else if m = 4 ∨ m = 6 ∨ m = 9 ∨ m = 11 then 30 else 31

/-- Epoch milliseconds of civil `y-m-d hh:mi` read at a fixed UTC offset of
`off` minutes east. -/
def msAtOffset (off y m d hh mi : Int) : Int :=
  daysFromCivil y m d * msPerDay + hh * msPerHour + mi * msPerMinute - off * msPerMinute

/-- Hour/minute validity for the ECMAScript Date Time String Format (an ISO
string such as `...T29:59:00+08:00` is an invalid Date; `24:00` is allowed). -/
def validHM (hh mi : Int) : Bool :=
  (0 ≤ hh && hh ≤ 23 && 0 ≤ mi && mi ≤ 59) || (hh == 24 && mi == 0)

/-- Year-month-day validity for the ECMAScript Date Time String Format. -/
def validYMD (y m d : Int) : Bool :=
  1 ≤ m && m ≤ 12 && 1 ≤ d && d ≤ daysInMonth y m

/-- Abstraction of a raw `startTime`/`endTime` value handed to the normalizer.
Constructors mirror the pattern cascade of `parseModelDateTimeLocal` in
`src/shared/datetime.ts` and carry the digit groups of the match:
* `absent`: `undefined`, `null` or `""` (all falsy);
* `withTZ res`: the string matches the explicit-offset test
  `/T.*[Z\+\-]\d\x7b0,2\x7d:?\d\x7b0,2\x7d$/`; `res` is the engine's direct
  parse result (`none` = Invalid Date);
* `localDT y m d hh mi`: the string matches
  `^(\d\x7b4\x7d-\d\x7b2\x7d-\d\x7b2\x7d)[ T](\d\x7b2\x7d:\d\x7b2\x7d)$`;
* `dateOnly y m d`: the string matches `^\d\x7b4\x7d-\d\x7b2\x7d-\d\x7b2\x7d$`;
* `other res`: none of the above; `res` is the engine's last-resort
  `new Date(value)` parse result. -/
inductive RawTime where
  | absent
  | withTZ (res : Option Int)
  | localDT (y m d hh mi : Nat)
  | dateOnly (y m d : Nat)
  | other (res : Option Int)
deriving DecidableEq, Repr

/-- JS truthiness of the raw value (`if (args.startTime) ...`). -/
def RawTime.present : RawTime → Bool
  | .absent => false
  | _ => true

/-- Whether the raw value is a string matching the bare-date pattern
`^\d\x7b4\x7d-\d\x7b2\x7d-\d\x7b2\x7d$` (the re-check on lines 100-103 of
`src/shared/datetime.ts`). -/
def RawTime.isDateOnlyStr : RawTime → Bool
  | .dateOnly _ _ _ => true
  | _ => false

/-- `parseModelDateTimeLocal` of `src/shared/datetime.ts` (the webhook has a
byte-identical private copy): explicit-offset strings parse directly;
`yyyy-MM-dd[ T]HH:mm` gets `+08:00` appended; bare `yyyy-MM-dd` becomes
`T00:00+08:00`; anything else falls through to the engine's `new Date(value)`.
Every failure returns `null` (`none`). -/
def parseModelDateTimeLocal : RawTime → Option Int
  | .absent => none
  | .withTZ res => res
  | .localDT y m d hh mi =>
      if validYMD y m d && validHM hh mi then some (msAtOffset taipeiOffsetMin y m d hh mi)
      else none
  | .dateOnly y m d =>
      if validYMD y m d then some (msAtOffset taipeiOffsetMin y m d 0 0) else none
  | .other res => res

/-- The engine's bare `new Date(value)` on the same raw value (the fallback on
lines 96-97 of `src/shared/datetime.ts`): a `T`-form or space-form date-time
without offset parses as local time of the runtime (offset `tz` minutes), a
bare date parses as UTC midnight, other strings give whatever the engine's
last-resort parse gives. -/
def jsNewDate (tz : Int) : RawTime → Option Int
  | .absent => none
  | .withTZ res => res
  | .localDT y m d hh mi =>
      if validYMD y m d && validHM hh mi then some (msAtOffset tz y m d hh mi) else none
  | .dateOnly y m d => if validYMD y m d then some (msAtOffset 0 y m d 0 0) else none
  | .other res => res

/-- A parse helper result (`Date | null`) stored into a JS variable. -/
def ofParse : Option Int → JSVal
  | some t => .valid t
  | none => .nullv

/-- A `new Date(...)` constructor result stored into a JS variable: a failed
parse is an Invalid Date object, which is truthy, never `null`. -/
def ofCtor : Option Int → JSVal
  | some t => .valid t
  | none => .invalid

def JSVal.isNull : JSVal → Bool
  | .nullv => true
  | _ => false

/-- `new Date(v.getTime() + k)`: NaN propagates. -/
def JSVal.addMs : JSVal → Int → JSVal
  | .valid t, k => .valid (t + k)
  | .invalid, _ => .invalid
  | .nullv, _ => .nullv

/-- JS `a <= b` on Date objects: numeric comparison of time values, false
whenever either side is NaN. -/
def jsLe : JSVal → JSVal → Bool
  | .valid a, .valid b => a ≤ b
  | _, _ => false

/-- JS `a < b` on Date objects (false whenever either side is NaN). -/
def jsLt : JSVal → JSVal → Bool
  | .valid a, .valid b => a < b
  | _, _ => false

/-- Embeds `new Date(d.getFullYear(), d.getMonth(), d.getDate(), 0, 0, 0, 0)`
for a runtime whose local time zone is the fixed offset `tz` minutes east of
UTC: per ECMAScript `LocalTime`/`MakeDay`, decomposing the instant into its
local civil year/month/day and rebuilding a Date at 00:00 local floors the
instant to the start of its local calendar day. -/
def localMidnight (tz t : Int) : Int :=
  Int.ediv (t + tz * msPerMinute) msPerDay * msPerDay - tz * msPerMinute

/-- The all-day snap applied to a `Date` variable (lines 114-118 of
`src/shared/datetime.ts`): `getFullYear`/`getMonth`/`getDate` of an Invalid
Date are NaN, and `new Date(NaN, NaN, NaN)` is again invalid. -/
def JSVal.snap (tz : Int) : JSVal → JSVal
  | .valid t => .valid (localMidnight tz t)
  | v => v

/-- The `\x7b startTime, endTime, allDay \x7d` argument record of the shared
normalizer (`allDay` is the source's `!!args.allDay`). -/
structure NormArgs where
  startTime : RawTime
  endTime : RawTime
  allDay : Bool
deriving DecidableEq, Repr

/-- The normalizer's result record; `endv` is the source's `end` field (a Lean
keyword). -/
structure NormTriple where
  start : JSVal
  endv : JSVal
  allDay : Bool
deriving DecidableEq, Repr

/-- Lines 93-103 of `src/shared/datetime.ts` for the start value:
`parseModelDateTimeLocal`, then the truthiness-guarded `new Date(args.startTime)`
fallback, then the (unreachable-when-present) bare-date re-check. -/
def normStartRaw (tz : Int) (rt : RawTime) : JSVal :=
  let s0 := ofParse (parseModelDateTimeLocal rt)
  let s1 := if s0.isNull && rt.present then ofCtor (jsNewDate tz rt) else s0
  if s1.isNull && rt.isDateOnlyStr then
    (match parseModelDateTimeLocal rt with
      | some t => JSVal.valid t
      | none => s1)
  else s1

/-- Lines 105-108: `if (!start) start = new Date()`. -/
def normStart (tz now : Int) (rt : RawTime) : JSVal :=
  let s2 := normStartRaw tz rt
  if s2.isNull then JSVal.valid now else s2

/-- Lines 94 and 97 for the end value (no bare-date re-check on the end). -/
def normEndRaw (tz : Int) (rt : RawTime) : JSVal :=
  let e0 := ofParse (parseModelDateTimeLocal rt)
  if e0.isNull && rt.present then ofCtor (jsNewDate tz rt) else e0

/-- `normalizeEventTimesFromText` of `src/shared/datetime.ts` (imported by the
client assistant modal directly and by the webhook as `sharedNormalize`):
parse both ends, default a missing start to `now` and a missing end to
`start + 1h`, snap all-day events to the runtime-local midnight with
`end = start + 24h`, and finally force `end = start + 1h` when `end <= start`. -/
def normalizeEventTimesFromText (tz now : Int) (args : NormArgs) : NormTriple :=
  let start := normStart tz now args.startTime
  let end0 := normEndRaw tz args.endTime
  let end1 := if end0.isNull then start.addMs msPerHour else end0
  let start2 := if args.allDay then start.snap tz else start
  let end2 := if args.allDay then (start.snap tz).addMs msPerDay else end1
  if jsLe end2 start2 then ⟨start2, start2.addMs msPerHour, args.allDay⟩
  else ⟨start2, end2, args.allDay⟩

/-- Abstraction of an event `description` string as seen by the transport
date/time extractors: which of their regular expressions match and the digit
groups captured.
* `labeledDate`: `(行程日期|日期)[:：]?\s*(\d\x7b4\x7d)年(\d\x7b1,2\x7d)月(\d\x7b1,2\x7d)日`;
* `bareDate`: bare `(\d\x7b4\x7d)年(\d\x7b1,2\x7d)月(\d\x7b1,2\x7d)日`;
* `labeledTime`: `(行程時間|時間)[:：]?\s*([0-2]?\d:[0-5]\d)`;
* `bareTime`: a bare `\b([0-2]?\d:[0-5]\d)\b` word;
* `v1Date`/`v1Time`: the stricter `行程日期[:：]\s*...` / `行程時間[:：]\s*...`
  patterns of the legacy `parseTransportDateTime` in the webhook.
A field holds the first match's digits; realizable values satisfy e.g. that a
`labeledDate` match implies a `bareDate` match, but no theorem below needs
that coherence. -/
structure DescInfo where
  labeledDate : Option (Nat × Nat × Nat)
  bareDate : Option (Nat × Nat × Nat)
  labeledTime : Option (Nat × Nat)
  bareTime : Option (Nat × Nat)
  v1Date : Option (Nat × Nat × Nat)
  v1Time : Option (Nat × Nat)
deriving DecidableEq, Repr

/-- The description value standing for an absent or override-free string. -/
def emptyDesc : DescInfo := ⟨none, none, none, none, none, none⟩

/-- `parseTransportDateTimeV2` of `src/shared/datetime.ts`: try the labeled
date regex then the bare one, the labeled time regex then the bare one; only
when both a date and a time matched, build `yyyy-MM-ddTHH:mm:00+08:00` and
parse it (invalid components make the ISO parse fail, returning `null`). -/
def parseTransportDateTimeV2 (desc : DescInfo) : Option Int :=
  match desc.labeledDate.orElse (fun _ => desc.bareDate),
        desc.labeledTime.orElse (fun _ => desc.bareTime) with
  | some (y, m, d), some (hh, mi) =>
      if validYMD y m d && validHM hh mi then some (msAtOffset taipeiOffsetMin y m d hh mi)
      else none
  | _, _ => none

/-- `Date.UTC(y, m, d, hh, mi)` per ECMAScript `MakeDay`/`MakeTime`: the
0-based month may be any integer and is rolled into the year, day and hour are
plain offsets (the hour may be negative), and a year in 0..99 is read as
1900+y. -/
def jsDateUTC (y m d hh mi : Int) : Int :=
  let y1 := if 0 ≤ y && y ≤ 99 then y + 1900 else y
  let ym := y1 + Int.fdiv m 12
  let mn := Int.emod m 12 + 1
  daysFromCivil ym mn 1 * msPerDay + (d - 1) * msPerDay + hh * msPerHour + mi * msPerMinute

/-- The legacy `parseTransportDateTime` of the webhook (`src/unnamed/part_004`
lines 272-288): both strict labeled patterns must match, and the instant is
built as `Date.UTC(y, m-1, d, hh-8, mm)` with no validity check (out-of-range
components roll over instead of failing). -/
def parseTransportDateTime (desc : DescInfo) : Option Int :=
  match desc.v1Date, desc.v1Time with
  | some (y, m, d), some (hh, mi) =>
      some (jsDateUTC (y : Int) ((m : Int) - 1) (d : Int) ((hh : Int) - 8) (mi : Int))
  | _, _ => none

/-- The override the webhook computes:
`parseTransportDateTimeV2(desc) || parseTransportDateTime(desc)`. -/
def transportOverride (desc : DescInfo) : Option Int :=
  (parseTransportDateTimeV2 desc).orElse (fun _ => parseTransportDateTime desc)

/-- A `createCalendarEvent` tool-call argument record. -/
structure ToolArgs where
  startTime : RawTime
  endTime : RawTime
  allDay : Bool
  description : DescInfo
deriving DecidableEq, Repr

/-- The client assistant's `createCalendarEvent` branch (`src/unnamed/part_000`
lines 165-252): the shared normalizer applied to the tool-call arguments; the
description is not consulted for times. -/
def clientCreateNorm (tz now : Int) (a : ToolArgs) : NormTriple :=
  normalizeEventTimesFromText tz now ⟨a.startTime, a.endTime, a.allDay⟩

/-- The webhook's `createCalendarEvent` branch (`src/unnamed/part_004` lines
456-474): shared normalize, then replace the triple with the embedded
transport date/time override when one exists, then re-snap to runtime-local
midnight when the arguments request an all-day event. -/
def serverCreateNorm (tz now : Int) (a : ToolArgs) : NormTriple :=
  let n0 := normalizeEventTimesFromText tz now ⟨a.startTime, a.endTime, a.allDay⟩
  let n1 : NormTriple :=
    match transportOverride a.description with
    | some dt => ⟨JSVal.valid dt, JSVal.valid (dt + msPerHour), false⟩
    | none => n0
  if a.allDay then ⟨n1.start.snap tz, (n1.start.snap tz).addMs msPerDay, true⟩ else n1

/-- A stored calendar event document (the fields the update branch touches). -/
structure StoredEvent where
  title : String
  description : DescInfo
  location : String
  startTime : JSVal
  endTime : JSVal
  allDay : Bool
deriving DecidableEq, Repr

/-- An `updateCalendarEvent` tool-call payload after `const \x7b id, ...updates \x7d`:
`none` means the key is absent from the call arguments (non-empty values
assumed for the string fields, so JS truthiness agrees with presence). -/
structure UpdatePayload where
  title : Option String
  description : Option DescInfo
  location : Option String
  startTime : Option RawTime
  endTime : Option RawTime
  allDay : Option Bool
deriving DecidableEq, Repr

/-- The webhook's `updateCalendarEvent` branch (`src/unnamed/part_004` lines
490-524) followed by the Firestore partial update: whenever any of
startTime/endTime/allDay is supplied, all three are recomputed through the
shared normalizer, the transport override and the all-day re-snap, and written;
otherwise no time field is written.  Fields whose key is absent from
`parsedUpdates` keep their stored value. -/
def serverApplyUpdate (tz now : Int) (s : StoredEvent) (u : UpdatePayload) : StoredEvent :=
  let timeBranch := u.startTime.isSome || u.endTime.isSome || u.allDay.isSome
  if timeBranch then
    let n0 := normalizeEventTimesFromText tz now
      ⟨u.startTime.getD .absent, u.endTime.getD .absent, u.allDay.getD false⟩
    let n1 : NormTriple :=
      match transportOverride (u.description.getD emptyDesc) with
      | some dt => ⟨JSVal.valid dt, JSVal.valid (dt + msPerHour), false⟩
      | none => n0
    let n2 : NormTriple :=
      if u.allDay.getD false then ⟨n1.start.snap tz, (n1.start.snap tz).addMs msPerDay, true⟩
      else n1
    { title := u.title.getD s.title
      description := u.description.getD s.description
      location := u.location.getD s.location
      startTime := n2.start
      endTime := n2.endv
      allDay := n2.allDay }
  else
    { title := u.title.getD s.title
      description := u.description.getD s.description
      location := u.location.getD s.location
      startTime := s.startTime
      endTime := s.endTime
      allDay := s.allDay }

/-! Address extraction (`pickupAddresses`, `dropoffAddresses`, `midStops` of
the event-detail modal, `src/unnamed/part_000` lines 755-839).  A description
line's body is abstracted as the delimiter-split pieces the code works with:
each piece is either a plain text chunk or a whole Markdown `[label](url)`
link. -/

/-- One delimiter-separated piece of a line body. -/
inductive Seg where
  | text (s : String)
  | link (lab url : String)
deriving DecidableEq, Repr

/-- Whitespace for the purposes of `.trim()` (ASCII whitespace; the source
text is Chinese labels and addresses, which JS trims identically). -/
def isSpaceChar (c : Char) : Bool :=
  c == ' ' || c == '\t' || c == '\n' || c == '\r'

/-- JS `String.prototype.trim` (modeled over the character list so that it
evaluates inside the kernel). -/
def jsTrim (s : String) : String :=
  ⟨((s.data.dropWhile isSpaceChar).reverse.dropWhile isSpaceChar).reverse⟩

/-- JS string truthiness / `.filter(Boolean)` emptiness test. -/
def strIsEmpty (s : String) : Bool := s.data.isEmpty

/-- ASCII lowercasing, as JS `toLowerCase` acts on the ASCII range (the CJK
text involved here is case-invariant). -/
def lowerChars (s : String) : List Char := s.data.map Char.toLower

/-- The label text of a Markdown link piece (one `[label](url)` match of the
global link regex). -/
def Seg.linkLabel : Seg → Option String
  | .link l _ => some l
  | .text _ => none

/-- The `normalize` helper of `midStops`: a piece that is exactly a Markdown
link contributes its label, otherwise the raw text; trimmed either way. -/
def Seg.normalizeTok : Seg → String
  | .link l _ => jsTrim l
  | .text s => jsTrim s

/-- A description line as the extraction memos see it:
* `pickupLine body`: the line contains `上車地址`; `body` is the text after
  the label (`.replace(/^.*?上車地址[:：]?\s*‍/, ...)`);
* `dropoffLine body`: likewise for `下車地址`;
* `remarkLine body`: the line matches `^(其他備註|備註|Notes?)[:：]`;
* `arrowLine p`: the line matches the arrow pattern
  `^(bullets)?(→|->)\s*(.+)$`; `p` is the payload;
* `keywordLine parts`: the line contains a sequence keyword (第一站, 先到,
  途經, ...); `parts` are the delimiter-split pieces with any leading keyword
  tag already stripped, as the code does per piece;
* `otherLine`: anything else. -/
inductive DescLine where
  | pickupLine (body : List Seg)
  | dropoffLine (body : List Seg)
  | remarkLine (body : List Seg)
  | arrowLine (p : Seg)
  | keywordLine (parts : List Seg)
  | otherLine
deriving DecidableEq, Repr

/-- Addresses recovered from one labeled-line body: if the body contains any
Markdown links, their label texts (trimmed); otherwise the delimiter-split
plain chunks, trimmed, with empties dropped (`.filter(Boolean)`). -/
def bodyAddresses (body : List Seg) : List String :=
  let md := body.filterMap Seg.linkLabel
  if md.isEmpty then
    (body.filterMap fun s =>
      match s with
      | .text t => some (jsTrim t)
      | .link _ _ => none).filter (fun s => !strIsEmpty s)
  else md.map jsTrim

/-- Whether `pat` occurs at the head of `cs`. -/
def leadsWith : List Char → List Char → Bool
  | [], _ => true
  | _ :: _, [] => false
  | p :: ps, c :: cs => p == c && leadsWith ps cs

/-- Whether `pat` occurs anywhere in `cs`. -/
def occursIn (pat : List Char) : List Char → Bool
  | [] => leadsWith pat []
  | c :: cs => leadsWith pat (c :: cs) || occursIn pat cs

/-- Case-insensitive substring test (for the `i`-flagged noise regexes). -/
def containsSub (s pat : String) : Bool := occursIn (lowerChars pat) (lowerChars s)

/-- Case-insensitive "starts with" test (for the anchored noise regexes). -/
def startsWithCI (s pre : String) : Bool := leadsWith (lowerChars pre) (lowerChars s)

/-- The noise filter of `pickupAddresses`/`dropoffAddresses`:
`!/^https?:/i && !/^www\./i && toLowerCase() !== "search" && !/api=1&query=/i`. -/
def cleanOk (s : String) : Bool :=
  !(startsWithCI s "http:") && !(startsWithCI s "https:") && !(startsWithCI s "www.") &&
    !(lowerChars s == "search".data) && !(containsSub s "api=1&query=")

/-- `[...new Set(items)]`: order-preserving first-occurrence deduplication. -/
def jsSetDedup : List String → List String
  | [] => []
  | x :: xs => x :: jsSetDedup (xs.filter (fun y => y ≠ x))
termination_by l => l.length
decreasing_by simp only [List.length_cons]; exact Nat.lt_succ_of_le (List.length_filter_le _ _)

/-- The flat list of raw pickup addresses with the noise filter applied
(the `items`/`cleaned` stage of `pickupAddresses`). -/
def pickupItems (desc : List DescLine) : List String :=
  ((desc.map fun l =>
    match l with
    | .pickupLine b => bodyAddresses b
    | _ => []).flatten).filter cleanOk

/-- `pickupAddresses` memo: collect, clean, dedup via a `Set`, cap at 3. -/
def pickupAddresses (desc : List DescLine) : List String :=
  (jsSetDedup (pickupItems desc)).take 3

def dropoffItems (desc : List DescLine) : List String :=
  ((desc.map fun l =>
    match l with
    | .dropoffLine b => bodyAddresses b
    | _ => []).flatten).filter cleanOk

/-- `dropoffAddresses` memo. -/
def dropoffAddresses (desc : List DescLine) : List String :=
  (jsSetDedup (dropoffItems desc)).take 3

def isAddrHeadChar (c : Char) : Bool :=
  (0x4e00 ≤ c.toNat && c.toNat ≤ 0x9fa5) || (48 ≤ c.toNat && c.toNat ≤ 57)

/-- The Taiwanese address suffixes of the `midStops` address-shape regex, in
source order. -/
def addrSuffixes : List String :=
  ["路", "街", "大道", "段", "巷", "弄", "號", "樓", "館", "站", "機場", "航廈", "里", "社區", "園區"]

/-- The positive half of `/[一-龥0-9].*(路|街|...)/`: some CJK or
digit character is followed (at a strictly later position) by one of the
suffixes. -/
def addrShapeChars : List Char → Bool
  | [] => false
  | c :: cs =>
      (isAddrHeadChar c && addrSuffixes.any fun suf => occursIn suf.data cs) ||
        addrShapeChars cs

/-- `looksLikeAddress` of `midStops`: address-shaped and not matching the
noise alternation `/api=1&query=|https?:|^www\./i`. -/
def looksLikeAddress (s : String) : Bool :=
  addrShapeChars s.data &&
    !(containsSub s "api=1&query=") && !(containsSub s "http:") &&
    !(containsSub s "https:") && !(startsWithCI s "www.")

/-- The candidate mid-stop strings contributed by one description line, given
the block list of already-reported pickup/dropoff addresses. -/
def midLineCands (block : List String) : DescLine → List String
  | .arrowLine p =>
      let v := p.normalizeTok
      if looksLikeAddress v && !(block.contains v) then [v] else []
  | .keywordLine parts =>
      (parts.map Seg.normalizeTok).filter fun v => looksLikeAddress v && !(block.contains v)
  | .remarkLine body =>
      let fromMd := ((body.filterMap Seg.linkLabel).map String.trim).filter fun v =>
        looksLikeAddress v && !(block.contains v)
      let fromParts := (body.map Seg.normalizeTok).filter fun v =>
        looksLikeAddress v && !(block.contains v)
      fromMd ++ fromParts
  | _ => []

/-- The flat candidate list of `midStops` (its `candidates` array). -/
def midItems (desc : List DescLine) : List String :=
  let block := pickupAddresses desc ++ dropoffAddresses desc
  (desc.map (midLineCands block)).flatten

/-- `midStops` memo: candidates from arrow lines, keyword lines and remark
bodies, minus anything already in the pickup/dropoff lists, dedup, cap at 3. -/
def midStops (desc : List DescLine) : List String :=
  (jsSetDedup (midItems desc)).take 3

/-! FlightAware correlator (`src/unnamed/part_004` lines 575-737). -/

/-- A provider timestamp field value: `nullv` = absent (`null`/`undefined`),
`emptyStr` = the empty string, `iso ms` = an ISO string the engine parses to
instant `ms`, `bad` = a non-empty string `new Date` cannot parse. -/
inductive TsVal where
  | nullv
  | emptyStr
  | iso (ms : Int)
  | bad
deriving DecidableEq, Repr

/-- The `value !== undefined && value !== null && value !== ""` test of
`pickFirstNonNull`. -/
def TsVal.isDefined : TsVal → Bool
  | .nullv => false
  | .emptyStr => false
  | _ => true

/-- `pickFirstNonNull(...values)`: the first value that is not undefined,
null or the empty string; `null` when none qualifies. -/
def pickFirstNonNull (vs : List TsVal) : Option TsVal :=
  vs.find? TsVal.isDefined

/-- `parseDate(iso)`: `null` for a missing value, `null` for an unparseable
string, the instant otherwise. -/
def parseDate : Option TsVal → Option Int
  | some (.iso t) => some t
  | _ => none

/-- The destination/origin airport fields consulted by the correlator. -/
structure FlightEndpoint where
  code : Option String
  code_iata : Option String
  code_icao : Option String
  code_lid : Option String
deriving DecidableEq, Repr

/-- One provider flight record (the fields the correlator and the payload
mapping consult; purely informational display fields such as gates, cities and
the tracking URL carry no logic and are omitted). -/
structure FlightRecord where
  ident : String
  ident_iata : Option String
  ident_icao : Option String
  status : String
  destination : Option FlightEndpoint
  actual_in : TsVal
  estimated_in : TsVal
  actual_on : TsVal
  estimated_on : TsVal
  scheduled_in : TsVal
  scheduled_on : TsVal
deriving DecidableEq, Repr

def TAIWAN_AIRPORT_CODES : List String :=
  ["TPE", "TSA", "KHH", "RMQ", "TTT", "HUN", "KNH", "MZG", "LZN", "GNI", "MFK", "KYD",
   "CYI", "TNN", "PIF", "RCTP", "RCSS", "RCKH", "RCMQ", "RCNN", "RCYU", "RCFN", "RCQC",
   "RCBS", "RCMT", "RCFG", "RCGI", "RCLY"]

/-- `isTaiwanAirport(code)`: falsy codes fail, otherwise membership of the
uppercased (ASCII) code in the allow-list. -/
def isTaiwanAirport : Option String → Bool
  | none => false
  | some c => TAIWAN_AIRPORT_CODES.any fun t => t.data == c.data.map Char.toUpper

/-- `isTaiwanArrival(flight)`. -/
def isTaiwanArrival (f : FlightRecord) : Bool :=
  match f.destination with
  | none => false
  | some d =>
      isTaiwanAirport d.code || isTaiwanAirport d.code_iata ||
        isTaiwanAirport d.code_icao || isTaiwanAirport d.code_lid

/-- The best-known arrival value the correlator computes for each candidate
(`src/unnamed/part_004` lines 714-721): `pickFirstNonNull(actual_in,
estimated_in, actual_on, estimated_on, scheduled_in, scheduled_on)`. -/
def arrivalIso (f : FlightRecord) : Option TsVal :=
  pickFirstNonNull
    [f.actual_in, f.estimated_in, f.actual_on, f.estimated_on, f.scheduled_in, f.scheduled_on]

/-- The arrival preference order exactly as the specification words it:
actual before estimated before scheduled, and within each level the "in"
variant before the "on" variant.  Spec-side definition, for comparison with
the source's `arrivalIso`. -/
def specArrivalIso (f : FlightRecord) : Option TsVal :=
  pickFirstNonNull
    [f.actual_in, f.actual_on, f.estimated_in, f.estimated_on, f.scheduled_in, f.scheduled_on]

/-- `formatDateKey(date, "Asia/Taipei")` renders the instant's civil date in
Taipei (a fixed +08:00 zone); two instants get equal keys exactly when they
fall on the same +08:00 local calendar day, so the key is modeled as that
local day number. -/
def taipeiDayKey (t : Int) : Int :=
  Int.ediv (t + taipeiOffsetMin * msPerMinute) msPerDay

/-- `isoStringToDateKey`. -/
def isoStringToDateKey (v : Option TsVal) : Option Int :=
  match parseDate v with
  | none => none
  | some t => some (taipeiDayKey t)

/-- One element of the correlator's `matches` array. -/
structure MatchItem where
  flight : FlightRecord
  key : Option Int
  ts : Option Int
deriving DecidableEq, Repr

def MAX_SAFE_INTEGER : Int := 9007199254740991

/-- The sort key of the comparator on line 730-734: distance of the arrival
instant from the event date, `Number.MAX_SAFE_INTEGER` when the arrival did
not resolve. -/
def matchDiff (eventDate : Int) (m : MatchItem) : Int :=
  match m.ts with
  | none => MAX_SAFE_INTEGER
  | some ts => ((ts - eventDate).natAbs : Int)

/-- `arr.sort((a, b) => f(a) - f(b))[0]` for an ECMAScript (stable) sort:
the leftmost element with the minimal key. -/
def selectClosest {α : Type} (f : α → Int) : List α → Option α
  | [] => none
  | x :: xs => some (xs.foldl (fun b y => if f y < f b then y else b) x)

/-- The provider-agnostic payload assembled by `mapFlightToStatus` (fields
with correlator logic; display-only fields are omitted, see `FlightRecord`). -/
structure FlightStatusPayload where
  ident : String
  flightNumber : String
  status : String
  estimatedArrival : Option TsVal
  actualArrival : Option TsVal
  scheduledArrival : Option TsVal
deriving DecidableEq, Repr

/-- JS `a || b` for an optional string against a fallback. -/
def jsOrStr (a : Option String) (b : String) : String :=
  match a with
  | some s => if strIsEmpty s then b else s
  | none => b

/-- `mapFlightToStatus` (the fields kept in the model): note its
`estimatedArrival` uses the same in/on-interleaved preference order as the
correlator. -/
def mapFlightToStatus (f : FlightRecord) : FlightStatusPayload :=
  { ident := f.ident
    flightNumber := jsOrStr f.ident_iata (jsOrStr f.ident_icao f.ident)
    status := f.status
    estimatedArrival := arrivalIso f
    actualArrival := pickFirstNonNull [f.actual_in, f.actual_on]
    scheduledArrival := pickFirstNonNull [f.scheduled_in, f.scheduled_on] }

/-- The correlator's `matches` array: Taiwan arrivals whose best-known arrival
falls on the same Taipei calendar day as the event date. -/
def survivors (flights : List FlightRecord) (eventDate : Int) : List MatchItem :=
  ((flights.filter isTaiwanArrival).map fun f =>
    ({ flight := f, key := isoStringToDateKey (arrivalIso f),
       ts := parseDate (arrivalIso f) } : MatchItem)).filter
    fun m => m.key == some (taipeiDayKey eventDate)

/-- `queryFlightAwareStatus` after the provider response arrives (the `flights`
array of the response): empty results and empty match sets give `null`;
otherwise the record whose arrival is closest to the event date (stable sort,
provider order breaking ties) is mapped to the payload. -/
def queryFlightAwareStatus (flights : List FlightRecord) (eventDate : Int) :
    Option FlightStatusPayload :=
  if flights.isEmpty then none
  else
    match selectClosest (matchDiff eventDate) (survivors flights eventDate) with
    | none => none
    | some m => some (mapFlightToStatus m.flight)

/-- A concrete Taiwan-arrival provider record: flight CI123 scheduled to land
at gate 2024-08-15T09:50Z (17:50 Taipei). -/
def exampleFlightA : FlightRecord :=
  { ident := "CAL123", ident_iata := some "CI123", ident_icao := some "CAL123"
    status := "Scheduled"
    destination := some ⟨some "TPE", some "TPE", some "RCTP", none⟩
    actual_in := .nullv, estimated_in := .nullv, actual_on := .nullv, estimated_on := .nullv
    scheduled_in := .iso 1723715400000, scheduled_on := .nullv }

/-- A second record of the same flight, landing 2024-08-15T14:00Z (22:00
Taipei, same local day). -/
def exampleFlightB : FlightRecord :=
  { ident := "CAL123", ident_iata := some "CI123", ident_icao := some "CAL123"
    status := "Scheduled"
    destination := some ⟨some "TPE", some "TPE", some "RCTP", none⟩
    actual_in := .nullv, estimated_in := .nullv, actual_on := .nullv, estimated_on := .nullv
    scheduled_in := .iso 1723730400000, scheduled_on := .nullv }

/-! Helper lemmas. -/

theorem localMidnight_idem (tz t : Int) :
    localMidnight tz (localMidnight tz t) = localMidnight tz t := by
  have h : ∀ q : Int, (q * 86400000).ediv 86400000 = q := fun q =>
    Int.mul_ediv_cancel q (by norm_num)
  simp only [localMidnight, msPerMinute, msPerDay, Int.sub_add_cancel, h]

theorem snap_idem (tz : Int) (v : JSVal) : (v.snap tz).snap tz = v.snap tz := by
  cases v <;> simp [JSVal.snap, localMidnight_idem]

theorem jsLe_addDay (v : JSVal) : jsLe (v.addMs msPerDay) v = false := by
  cases v <;> simp [jsLe, JSVal.addMs, msPerDay]

theorem normStart_not_null (tz now : Int) (rt : RawTime) :
    (normStart tz now rt).isNull = false := by
  simp only [normStart]
  cases hv : normStartRaw tz rt <;> simp [hv, JSVal.isNull]

/-- Shape of the shared normalizer's output on an all-day input. -/
theorem normalize_allDay (tz now : Int) (args : NormArgs) (h : args.allDay = true) :
    normalizeEventTimesFromText tz now args =
      ⟨(normStart tz now args.startTime).snap tz,
        ((normStart tz now args.startTime).snap tz).addMs msPerDay, true⟩ := by
  unfold normalizeEventTimesFromText
  simp [h, jsLe_addDay]

/-- The normalizer's result is always the final `if` applied to some pair of
intermediate start/end values. -/
theorem normalize_result (tz now : Int) (a : NormArgs) :
    ∃ st en : JSVal,
      normalizeEventTimesFromText tz now a =
        (if jsLe en st then ⟨st, st.addMs msPerHour, a.allDay⟩ else ⟨st, en, a.allDay⟩) :=
  ⟨_, _, rfl⟩

/-- Zeta-expanded form of the normalizer (for case analysis on the final
end-fix branch). -/
theorem normalize_unfold (tz now : Int) (a : NormArgs) :
    normalizeEventTimesFromText tz now a =
      (if jsLe
          (if a.allDay then ((normStart tz now a.startTime).snap tz).addMs msPerDay
           else if (normEndRaw tz a.endTime).isNull then
             (normStart tz now a.startTime).addMs msPerHour
           else normEndRaw tz a.endTime)
          (if a.allDay then (normStart tz now a.startTime).snap tz
           else normStart tz now a.startTime) then
        ⟨(if a.allDay then (normStart tz now a.startTime).snap tz
          else normStart tz now a.startTime),
          (if a.allDay then (normStart tz now a.startTime).snap tz
           else normStart tz now a.startTime).addMs msPerHour, a.allDay⟩
      else
        ⟨(if a.allDay then (normStart tz now a.startTime).snap tz
          else normStart tz now a.startTime),
          (if a.allDay then ((normStart tz now a.startTime).snap tz).addMs msPerDay
           else if (normEndRaw tz a.endTime).isNull then
             (normStart tz now a.startTime).addMs msPerHour
           else normEndRaw tz a.endTime), a.allDay⟩) := by
  cases h : a.allDay <;> simp only [normalizeEventTimesFromText, h]

/-- The normalizer's output start, independent of the final end-fix branch. -/
theorem normalize_start (tz now : Int) (a : NormArgs) :
    (normalizeEventTimesFromText tz now a).start =
      if a.allDay then (normStart tz now a.startTime).snap tz
      else normStart tz now a.startTime := by
  rw [normalize_unfold]
  cases h : a.allDay
  · simp only [h, Bool.false_eq_true, if_false]
    split <;> split <;> rfl
  · simp only [h, if_true]
    split <;> rfl

/-- A present string that every parse fails on leaves the start variable as an
Invalid Date. -/
theorem normStart_other_none (tz now : Int) : normStart tz now (.other none) = .invalid := rfl

/-! Claim theorems. -/

/-- Claim C1, counterexample: the client and server create paths are not
identical, and the normalization is not independent of the runtime's local
time zone.  First conjunct: on a description embedding the transport date
2024年8月20日 10:00 while the tool arguments say 2024-08-15T14:00, the server
path follows the description override but the client path follows the
arguments (both runtimes at +08:00).  Second conjunct: the same all-day
arguments normalize differently on a +08:00 runtime and on a UTC runtime. -/
theorem C1_counterexample :
    serverCreateNorm 480 0
        ⟨.localDT 2024 8 15 14 0, .localDT 2024 8 15 15 0, false,
          ⟨some (2024, 8, 20), some (2024, 8, 20), some (10, 0), some (10, 0),
            some (2024, 8, 20), some (10, 0)⟩⟩ ≠
      clientCreateNorm 480 0
        ⟨.localDT 2024 8 15 14 0, .localDT 2024 8 15 15 0, false,
          ⟨some (2024, 8, 20), some (2024, 8, 20), some (10, 0), some (10, 0),
            some (2024, 8, 20), some (10, 0)⟩⟩ ∧
    clientCreateNorm 480 0 ⟨.localDT 2024 8 15 14 0, .absent, true, emptyDesc⟩ ≠
      clientCreateNorm 0 0 ⟨.localDT 2024 8 15 14 0, .absent, true, emptyDesc⟩ := by
  decide

/-- Claim C1 (amended): when the description yields no embedded transport
date/time override and both runtimes run at the same local UTC offset, the
client-side assistant create normalization and the server-side webhook create
normalization agree on every tool-call argument record (the server's extra
all-day re-snap is then a no-op). -/
theorem C1_cross_env (tz now : Int) (a : ToolArgs)
    (h : transportOverride a.description = none) :
    serverCreateNorm tz now a = clientCreateNorm tz now a := by
  cases hAD : a.allDay
  · simp [serverCreateNorm, clientCreateNorm, h, hAD]
  · have hn := normalize_allDay tz now ⟨a.startTime, a.endTime, a.allDay⟩ (by simpa using hAD)
    rw [hAD] at hn
    dsimp only at hn
    simp [serverCreateNorm, clientCreateNorm, h, hAD, hn, snap_idem]

/-- Witness for C1: a concrete override-free argument record on which both
paths produce the same triple. -/
theorem C1_cross_env_witness :
    transportOverride emptyDesc = none ∧
      serverCreateNorm 480 999 ⟨.localDT 2024 8 15 14 0, .absent, true, emptyDesc⟩ =
        clientCreateNorm 480 999 ⟨.localDT 2024 8 15 14 0, .absent, true, emptyDesc⟩ :=
  ⟨rfl, C1_cross_env 480 999 _ rfl⟩

/-- Claim C2, evaluation at the failing input: on a runtime whose local zone
is UTC (offset 0, as for the deployed webhook), the all-day normalization of
startTime "2024-08-15" snaps to 2024-08-15T00:00Z (= 1723593600000, which is
08:00 in Taipei), not to the +08:00 local midnight of the start's +08:00
calendar date (2024-08-14T16:00Z = 1723651200000 = `msAtOffset 480 2024 8 15
0 0`): the snap uses the ambient zone, not the fixed +08:00 offset. -/
theorem C2_code_eval :
    normalizeEventTimesFromText 0 0 ⟨.dateOnly 2024 8 15, .absent, true⟩ =
      ⟨.valid 1723593600000, .valid 1723680000000, true⟩ ∧
    (1723593600000 : Int) ≠ msAtOffset 480 2024 8 15 0 0 := by
  decide

/-- Claim C3, counterexample: for a present but wholly unparseable startTime
and endTime (engine parse fails too), the output start and end are Invalid
Dates, so `end > start` is false; and for an all-day input whose raw end is
before its raw start, the end is forced to start + 24h, not start + 1h. -/
theorem C3_counterexample :
    (normalizeEventTimesFromText 480 0 ⟨.other none, .other none, false⟩).start = .invalid ∧
    jsLt (normalizeEventTimesFromText 480 0 ⟨.other none, .other none, false⟩).start
        (normalizeEventTimesFromText 480 0 ⟨.other none, .other none, false⟩).endv = false ∧
    (normalizeEventTimesFromText 480 0
          ⟨.localDT 2024 8 15 14 0, .localDT 2024 8 15 13 0, true⟩).endv ≠
      (normalizeEventTimesFromText 480 0
          ⟨.localDT 2024 8 15 14 0, .localDT 2024 8 15 13 0, true⟩).start.addMs msPerHour := by
  decide

/-- Claim C3 (amended): whenever the output start and end are valid instants,
`end > start` holds; and when `allDay` is false and both supplied times parse
with raw end ≤ raw start, the end is forced to exactly start + 1 hour.
(Present-but-unparseable times yield Invalid-Date outputs, for which the JS
comparison `end > start` is vacuously false; with `allDay` the forced end is
start + 24h.) -/
theorem C3_end_after_start (tz now : Int) (a : NormArgs) :
    (∀ s e : Int, (normalizeEventTimesFromText tz now a).start = .valid s →
      (normalizeEventTimesFromText tz now a).endv = .valid e → s < e) ∧
    (∀ s e : Int, a.allDay = false → parseModelDateTimeLocal a.startTime = some s →
      parseModelDateTimeLocal a.endTime = some e → e ≤ s →
      normalizeEventTimesFromText tz now a = ⟨.valid s, .valid (s + msPerHour), false⟩) := by
  constructor
  · obtain ⟨st, en, hN⟩ := normalize_result tz now a
    intro s e hs he
    rw [hN] at hs he
    by_cases hle : jsLe en st = true
    · rw [if_pos hle] at hs he
      dsimp only at hs he
      rw [hs] at he
      simp only [JSVal.addMs, JSVal.valid.injEq, msPerHour] at he
      omega
    · rw [if_neg hle] at hs he
      dsimp only at hs he
      rw [hs, he] at hle
      simp [jsLe] at hle
      omega
  · intro s e hAD hps hpe hle
    simp [normalizeEventTimesFromText, normStart, normStartRaw, normEndRaw, hps, hpe, hAD,
      ofParse, JSVal.isNull, jsLe, hle, JSVal.addMs]

/-- Witness for C3: specification scenario 1, `2024-08-15T14:00` /
`2024-08-15T13:00`, timed: the inverted end is corrected to start + 1h
(start = 2024-08-15T06:00Z). -/
theorem C3_end_after_start_witness :
    normalizeEventTimesFromText 480 0 ⟨.localDT 2024 8 15 14 0, .localDT 2024 8 15 13 0, false⟩ =
      ⟨.valid 1723701600000, .valid (1723701600000 + msPerHour), false⟩ :=
  (C3_end_after_start 480 0 _).2 1723701600000 1723698000000 rfl rfl rfl (by decide)

/-- Claim C5 (confirmed): the normalizer is idempotent on valid triples.  A
valid `NormalizedEventTime` has `end > start` and, when all-day, a start lying
at the runtime-local midnight with `end = start + 24h`; its instants re-enter
the normalizer as the only raw form that denotes exact instants (ISO strings
with explicit offset, the `withTZ` branch), and come back unchanged. -/
theorem C5_idempotent (tz now s e : Int) (b : Bool) (hlt : s < e)
    (hAD : b = true → localMidnight tz s = s ∧ e = s + msPerDay) :
    normalizeEventTimesFromText tz now ⟨.withTZ (some s), .withTZ (some e), b⟩ =
      ⟨.valid s, .valid e, b⟩ := by
  cases b
  · have hle : ¬ (e ≤ s) := by omega
    simp [normalizeEventTimesFromText, normStart, normStartRaw, normEndRaw,
      parseModelDateTimeLocal, ofParse, JSVal.isNull, jsLe, hle]
  · obtain ⟨hm, he⟩ := hAD rfl
    have hn := normalize_allDay tz now ⟨.withTZ (some s), .withTZ (some e), true⟩ rfl
    simp only [hn]
    simp [normStart, normStartRaw, parseModelDateTimeLocal, ofParse, JSVal.isNull,
      JSVal.snap, JSVal.addMs, hm, he]

/-- Witness for C5: the all-day triple 2024-08-15 (+08:00 midnights) is a
fixed point of the normalizer on a +08:00 runtime. -/
theorem C5_idempotent_witness :
    normalizeEventTimesFromText 480 5
        ⟨.withTZ (some 1723651200000), .withTZ (some 1723737600000), true⟩ =
      ⟨.valid 1723651200000, .valid 1723737600000, true⟩ :=
  C5_idempotent 480 5 1723651200000 1723737600000 true (by decide)
    (fun _ => ⟨by decide, by decide⟩)

/-- Claim C6, counterexample: a present startTime string failing every parse
pattern (including the engine's last-resort parse) does not default to the
current instant — the Invalid Date returned by the fallback `new Date(value)`
is truthy, so the `if (!start) start = new Date()` branch never runs and the
output start is an Invalid Date. -/
theorem C6_counterexample :
    (normalizeEventTimesFromText 480 1723701600000 ⟨.other none, .absent, false⟩).start =
      .invalid ∧
    (normalizeEventTimesFromText 480 1723701600000 ⟨.other none, .absent, false⟩).start ≠
      .valid 1723701600000 := by
  decide

/-- Claim C6 (amended): recovery is local and silent (the embedding is a total
function; no error path exists), but the current-instant default applies only
to absent or empty time values: then start = now and end = now + 1h.  A
present string that fails every pattern, the engine's unqualified parse
included, yields an Invalid-Date start instead of the current instant. -/
theorem C6_fallback (tz now : Int) (a : NormArgs) :
    (a.startTime = .absent → a.endTime = .absent → a.allDay = false →
      normalizeEventTimesFromText tz now a = ⟨.valid now, .valid (now + msPerHour), false⟩) ∧
    (a.startTime = .other none → (normalizeEventTimesFromText tz now a).start = .invalid) := by
  constructor
  · intro hs he hAD
    simp [normalizeEventTimesFromText, normStart, normStartRaw, normEndRaw, hs, he, hAD,
      parseModelDateTimeLocal, ofParse, JSVal.isNull, RawTime.present, RawTime.isDateOnlyStr,
      jsLe, JSVal.addMs, msPerHour]
  · intro hs
    rw [normalize_start, hs, normStart_other_none]
    cases a.allDay <;> rfl

/-- Witness for C6: absent times default to the current instant plus one
hour. -/
theorem C6_fallback_witness :
    normalizeEventTimesFromText 480 42 ⟨.absent, .absent, false⟩ =
      ⟨.valid 42, .valid (42 + msPerHour), false⟩ :=
  (C6_fallback 480 42 _).1 rfl rfl rfl

/-- Claim C4 (confirmed): on both the webhook create branch and the webhook
update branch, a description carrying an embedded date (YYYY年M月D日) and time
(H:MM) — with components the ISO parse accepts — replaces the default triple
with start = the override instant, end = override + 1h, allDay = false; and
when the original arguments request an all-day event, the final result is the
runtime-local midnight re-snap of the override with end = start + 24h,
regardless of the override path. -/
theorem C4_override_resnap (tz now : Int) (dsc : DescInfo) (y m d hh mi : Nat)
    (hd : dsc.labeledDate.orElse (fun _ => dsc.bareDate) = some (y, m, d))
    (ht : dsc.labeledTime.orElse (fun _ => dsc.bareTime) = some (hh, mi))
    (hv : (validYMD y m d && validHM hh mi) = true) :
    (∀ a : ToolArgs, a.description = dsc →
      serverCreateNorm tz now a =
        (if a.allDay then
          ⟨.valid (localMidnight tz (msAtOffset taipeiOffsetMin y m d hh mi)),
            .valid (localMidnight tz (msAtOffset taipeiOffsetMin y m d hh mi) + msPerDay),
            true⟩
         else
          ⟨.valid (msAtOffset taipeiOffsetMin y m d hh mi),
            .valid (msAtOffset taipeiOffsetMin y m d hh mi + msPerHour), false⟩)) ∧
    (∀ (s : StoredEvent) (u : UpdatePayload), u.description = some dsc →
      (u.startTime.isSome || u.endTime.isSome || u.allDay.isSome) = true →
      (serverApplyUpdate tz now s u).startTime =
          (if u.allDay.getD false then
            JSVal.valid (localMidnight tz (msAtOffset taipeiOffsetMin y m d hh mi))
           else JSVal.valid (msAtOffset taipeiOffsetMin y m d hh mi)) ∧
        (serverApplyUpdate tz now s u).endTime =
          (if u.allDay.getD false then
            JSVal.valid (localMidnight tz (msAtOffset taipeiOffsetMin y m d hh mi) + msPerDay)
           else JSVal.valid (msAtOffset taipeiOffsetMin y m d hh mi + msPerHour)) ∧
        (serverApplyUpdate tz now s u).allDay = u.allDay.getD false) := by
  have hov : transportOverride dsc = some (msAtOffset taipeiOffsetMin y m d hh mi) := by
    have hv2 := hv
    rw [Bool.and_eq_true] at hv2
    unfold transportOverride parseTransportDateTimeV2
    rw [hd, ht]
    simp [hv2.1, hv2.2, Option.orElse]
  constructor
  · intro a ha
    cases hAD : a.allDay <;>
      simp [serverCreateNorm, ha, hov, hAD, JSVal.snap, JSVal.addMs]
  · intro s u hdu hb
    cases hAD : u.allDay.getD false <;>
      simp [serverApplyUpdate, hdu, hov, hb, hAD, JSVal.snap, JSVal.addMs]

/-- Witness for C4: a create call with arguments 2024-08-15T14:00 but a
description embedding 行程日期 2024年8月20日 / 行程時間 10:00 resolves to the
embedded instant (2024-08-20T02:00Z) plus one hour, timed. -/
theorem C4_override_resnap_witness :
    serverCreateNorm 480 7
        ⟨.localDT 2024 8 15 14 0, .absent, false,
          ⟨some (2024, 8, 20), some (2024, 8, 20), some (10, 0), some (10, 0),
            some (2024, 8, 20), some (10, 0)⟩⟩ =
      ⟨.valid 1724119200000, .valid 1724122800000, false⟩ :=
  ((C4_override_resnap 480 7
      ⟨some (2024, 8, 20), some (2024, 8, 20), some (10, 0), some (10, 0),
        some (2024, 8, 20), some (10, 0)⟩ 2024 8 20 10 0 rfl rfl (by decide)).1
    ⟨.localDT 2024 8 15 14 0, .absent, false,
      ⟨some (2024, 8, 20), some (2024, 8, 20), some (10, 0), some (10, 0),
        some (2024, 8, 20), some (10, 0)⟩⟩ rfl).trans (by decide)

/-- Claim C7, counterexample: an update payload supplying only `allDay` does
not leave the stored start and end untouched — the webhook update branch
recomputes all three time fields through the normalizer (here start becomes
the all-day snap of the current instant, not the stored 2024-08-15T06:00Z). -/
theorem C7_counterexample :
    (serverApplyUpdate 480 1723701600000
          ⟨"t", emptyDesc, "loc", .valid 1723701600000, .valid 1723705200000, false⟩
          ⟨none, none, none, none, none, some true⟩).startTime ≠
        JSVal.valid 1723701600000 ∧
      (serverApplyUpdate 480 1723701600000
          ⟨"t", emptyDesc, "loc", .valid 1723701600000, .valid 1723705200000, false⟩
          ⟨none, none, none, none, none, some true⟩).endTime ≠
        JSVal.valid 1723705200000 := by
  decide

/-- Claim C7 (amended): the update leaves untouched every stored field whose
key is absent from the payload, except that startTime, endTime and allDay are
only preserved when none of the three is supplied — supplying any one of them
rewrites all three through the normalizer. -/
theorem C7_frame (tz now : Int) (s : StoredEvent) (u : UpdatePayload) :
    (u.startTime = none → u.endTime = none → u.allDay = none →
      (serverApplyUpdate tz now s u).startTime = s.startTime ∧
        (serverApplyUpdate tz now s u).endTime = s.endTime ∧
        (serverApplyUpdate tz now s u).allDay = s.allDay) ∧
    (u.title = none → (serverApplyUpdate tz now s u).title = s.title) ∧
    (u.description = none → (serverApplyUpdate tz now s u).description = s.description) ∧
    (u.location = none → (serverApplyUpdate tz now s u).location = s.location) := by
  refine ⟨fun h1 h2 h3 => ?_, fun h => ?_, fun h => ?_, fun h => ?_⟩
  · simp [serverApplyUpdate, h1, h2, h3]
  · by_cases hb : (u.startTime.isSome || u.endTime.isSome || u.allDay.isSome) = true <;>
      simp [serverApplyUpdate, hb, h]
  · by_cases hb : (u.startTime.isSome || u.endTime.isSome || u.allDay.isSome) = true <;>
      simp [serverApplyUpdate, hb, h]
  · by_cases hb : (u.startTime.isSome || u.endTime.isSome || u.allDay.isSome) = true <;>
      simp [serverApplyUpdate, hb, h]

/-- Witness for C7: an update touching only title and location leaves the
stored times and flags unchanged. -/
theorem C7_frame_witness :
    (serverApplyUpdate 480 5 ⟨"t", emptyDesc, "loc", .valid 10, .valid 20, false⟩
        ⟨some "t2", none, some "loc2", none, none, none⟩).startTime = JSVal.valid 10 ∧
      (serverApplyUpdate 480 5 ⟨"t", emptyDesc, "loc", .valid 10, .valid 20, false⟩
          ⟨some "t2", none, some "loc2", none, none, none⟩).description = emptyDesc :=
  ⟨((C7_frame 480 5 ⟨"t", emptyDesc, "loc", .valid 10, .valid 20, false⟩
      ⟨some "t2", none, some "loc2", none, none, none⟩).1 rfl rfl rfl).1,
    (C7_frame 480 5 ⟨"t", emptyDesc, "loc", .valid 10, .valid 20, false⟩
      ⟨some "t2", none, some "loc2", none, none, none⟩).2.2.1 rfl⟩

theorem jsSetDedup_sublist (l : List String) : List.Sublist (jsSetDedup l) l := by
  induction l using jsSetDedup.induct with
  | case1 => simp [jsSetDedup]
  | case2 x xs ih =>
      rw [jsSetDedup]
      exact List.Sublist.cons₂ x (ih.trans (List.filter_sublist xs))

theorem jsSetDedup_nodup (l : List String) : (jsSetDedup l).Nodup := by
  induction l using jsSetDedup.induct with
  | case1 => simp [jsSetDedup]
  | case2 x xs ih =>
      rw [jsSetDedup]
      refine List.Nodup.cons (fun hx => ?_) ih
      have := (jsSetDedup_sublist _).subset hx
      simp at this

/-- Nodup, cap and order preservation for one capped-dedup list. -/
theorem dedupTake_spec (l : List String) :
    ((jsSetDedup l).take 3).Nodup ∧ ((jsSetDedup l).take 3).length ≤ 3 ∧
      List.Sublist ((jsSetDedup l).take 3) l :=
  ⟨(jsSetDedup_nodup l).sublist (List.take_sublist 3 _),
    List.length_take_le 3 _,
    (List.take_sublist 3 _).trans (jsSetDedup_sublist l)⟩

/-- Claim C8 (confirmed): the pickup, dropoff and mid-stop lists are
deduplicated by normalized text (Markdown label extracted, trimmed — the
normalization happens before the `Set` is built), order-preserving (each list
is a sublist of its candidate stream), and capped at 3 entries; and a
description holding the same address once as a plain labeled line and once as
a Markdown link with the same label text reports that address exactly once. -/
theorem C8_dedup_cap (desc : List DescLine) (s u : String) :
    ((pickupAddresses desc).Nodup ∧ (pickupAddresses desc).length ≤ 3 ∧
      List.Sublist (pickupAddresses desc) (pickupItems desc)) ∧
    ((dropoffAddresses desc).Nodup ∧ (dropoffAddresses desc).length ≤ 3 ∧
      List.Sublist (dropoffAddresses desc) (dropoffItems desc)) ∧
    ((midStops desc).Nodup ∧ (midStops desc).length ≤ 3 ∧
      List.Sublist (midStops desc) (midItems desc)) ∧
    (cleanOk s = true → jsTrim s = s → strIsEmpty s = false →
      pickupAddresses [.pickupLine [.text s], .pickupLine [.link s u]] = [s]) := by
  refine ⟨dedupTake_spec _, dedupTake_spec _, dedupTake_spec _, fun hc ht hne => ?_⟩
  simp [pickupAddresses, pickupItems, bodyAddresses, Seg.linkLabel, ht, hne, hc,
    jsSetDedup, List.filter]

/-- Witness for C8: 市府路45號 as a plain labeled line and as a Markdown link
label appears exactly once in the pickup list. -/
theorem C8_dedup_cap_witness :
    pickupAddresses
        [.pickupLine [.text "市府路45號"],
          .pickupLine [.link "市府路45號" "https://maps.google.com/maps?q=45"]] =
      ["市府路45號"] :=
  (C8_dedup_cap [] "市府路45號" "https://maps.google.com/maps?q=45").2.2.2 rfl rfl rfl

/-- Claim C9, counterexample: a record with no gate-arrival actual time but
both an estimated gate arrival (instant 200) and an actual runway arrival
(instant 100): the correlator's preference picks the estimated "in" value,
whereas the claimed order (actual before estimated throughout) picks the
actual "on" value. -/
theorem C9_counterexample :
    arrivalIso ⟨"CI123", none, none, "En Route",
        some ⟨some "TPE", none, none, none⟩,
        .nullv, .iso 200, .iso 100, .nullv, .nullv, .nullv⟩ = some (.iso 200) ∧
    specArrivalIso ⟨"CI123", none, none, "En Route",
        some ⟨some "TPE", none, none, none⟩,
        .nullv, .iso 200, .iso 100, .nullv, .nullv, .nullv⟩ = some (.iso 100) ∧
    arrivalIso ⟨"CI123", none, none, "En Route",
        some ⟨some "TPE", none, none, none⟩,
        .nullv, .iso 200, .iso 100, .nullv, .nullv, .nullv⟩ ≠
      specArrivalIso ⟨"CI123", none, none, "En Route",
        some ⟨some "TPE", none, none, none⟩,
        .nullv, .iso 200, .iso 100, .nullv, .nullv, .nullv⟩ := by
  decide

/-- Claim C9 (amended): the best-known arrival instant used for matching is
the first defined value among actual_in, estimated_in, actual_on,
estimated_on, scheduled_in, scheduled_on — the gate ("in") timestamps are
preferred actual-then-estimated, then the runway ("on") timestamps
actual-then-estimated, then the scheduled pair; an estimated gate arrival
outranks an actual runway arrival. -/
theorem C9_preference (f : FlightRecord) :
    (f.actual_in.isDefined = true → arrivalIso f = some f.actual_in) ∧
    (f.actual_in.isDefined = false → f.estimated_in.isDefined = true →
      arrivalIso f = some f.estimated_in) ∧
    (f.actual_in.isDefined = false → f.estimated_in.isDefined = false →
      f.actual_on.isDefined = true → arrivalIso f = some f.actual_on) ∧
    (f.actual_in.isDefined = false → f.estimated_in.isDefined = false →
      f.actual_on.isDefined = false → f.estimated_on.isDefined = true →
      arrivalIso f = some f.estimated_on) ∧
    (f.actual_in.isDefined = false → f.estimated_in.isDefined = false →
      f.actual_on.isDefined = false → f.estimated_on.isDefined = false →
      f.scheduled_in.isDefined = true → arrivalIso f = some f.scheduled_in) ∧
    (f.actual_in.isDefined = false → f.estimated_in.isDefined = false →
      f.actual_on.isDefined = false → f.estimated_on.isDefined = false →
      f.scheduled_in.isDefined = false → f.scheduled_on.isDefined = true →
      arrivalIso f = some f.scheduled_on) ∧
    (f.actual_in.isDefined = false → f.estimated_in.isDefined = false →
      f.actual_on.isDefined = false → f.estimated_on.isDefined = false →
      f.scheduled_in.isDefined = false → f.scheduled_on.isDefined = false →
      arrivalIso f = none) := by
  refine ⟨fun h1 => ?_, fun h1 h2 => ?_, fun h1 h2 h3 => ?_, fun h1 h2 h3 h4 => ?_,
    fun h1 h2 h3 h4 h5 => ?_, fun h1 h2 h3 h4 h5 h6 => ?_, fun h1 h2 h3 h4 h5 h6 => ?_⟩ <;>
    simp_all [arrivalIso, pickFirstNonNull, List.find?]

/-- Witness for C9: the scheduled-only example record resolves to its
scheduled gate arrival. -/
theorem C9_preference_witness :
    arrivalIso exampleFlightA = some (.iso 1723715400000) :=
  (C9_preference exampleFlightA).2.2.2.2.1 rfl rfl rfl rfl rfl

/-- The running minimum of the fold in `selectClosest` is a lower bound of the
seed and of every list element. -/
theorem foldl_min_le {α : Type} (f : α → Int) (l : List α) (b : α) :
    f (l.foldl (fun b y => if f y < f b then y else b) b) ≤ f b ∧
      ∀ y ∈ l, f (l.foldl (fun b y => if f y < f b then y else b) b) ≤ f y := by
  induction l generalizing b with
  | nil => simp
  | cons x xs ih =>
      simp only [List.foldl_cons]
      by_cases h : f x < f b
      · rw [if_pos h]
        refine ⟨le_trans (ih x).1 (le_of_lt h), fun y hy => ?_⟩
        rcases List.mem_cons.mp hy with rfl | hy
        · exact (ih y).1
        · exact (ih x).2 y hy
      · rw [if_neg h]
        refine ⟨(ih b).1, fun y hy => ?_⟩
        rcases List.mem_cons.mp hy with rfl | hy
        · exact le_trans (ih b).1 (le_of_not_lt h)
        · exact (ih b).2 y hy

/-- Decomposition of `selectClosest`: the selected element splits the list
into a strict-greater prefix and a greater-or-equal suffix — it is the
leftmost minimum, which is what the head of a stable sort is. -/
theorem selectClosest_split {α : Type} (f : α → Int) (x : α) (xs : List α) :
    ∃ l₁ l₂, x :: xs = l₁ ++ (xs.foldl (fun b y => if f y < f b then y else b) x) :: l₂ ∧
      (∀ y ∈ l₁, f (xs.foldl (fun b y => if f y < f b then y else b) x) < f y) ∧
      (∀ y ∈ l₂, f (xs.foldl (fun b y => if f y < f b then y else b) x) ≤ f y) := by
  induction xs generalizing x with
  | nil => exact ⟨[], [], rfl, by simp, by simp⟩
  | cons z zs ih =>
      simp only [List.foldl_cons]
      by_cases h : f z < f x
      · rw [if_pos h]
        obtain ⟨l₁, l₂, he, h1, h2⟩ := ih z
        refine ⟨x :: l₁, l₂, by rw [List.cons_append, ← he], fun y hy => ?_, h2⟩
        rcases List.mem_cons.mp hy with rfl | hy
        · exact lt_of_le_of_lt (foldl_min_le f zs z).1 h
        · exact h1 y hy
      · rw [if_neg h]
        obtain ⟨l₁, l₂, he, h1, h2⟩ := ih x
        cases l₁ with
        | nil =>
            simp only [List.nil_append] at he
            injection he with hx hzs
            refine ⟨[], z :: l₂, ?_, by simp, fun y hy => ?_⟩
            · rw [List.nil_append, ← hx, ← hzs]
            · rcases List.mem_cons.mp hy with rfl | hy
              · rw [← hx]
                exact le_of_not_lt h
              · exact h2 y hy
        | cons a l₁t =>
            simp only [List.cons_append] at he
            injection he with hx hzs
            have hfx : f (zs.foldl (fun b y => if f y < f b then y else b) x) < f x := by
              rw [show f x = f a from congrArg f hx]
              exact h1 a (List.mem_cons_self a l₁t)
            refine ⟨x :: z :: l₁t, l₂, ?_, fun y hy => ?_, h2⟩
            · rw [List.cons_append, List.cons_append, ← hzs]
            · rcases List.mem_cons.mp hy with rfl | hy2
              · exact hfx
              · rcases List.mem_cons.mp hy2 with rfl | hy3
                · exact lt_of_lt_of_le hfx (le_of_not_lt h)
                · exact h1 y (List.mem_cons_of_mem a hy3)

/-- Claim C10 (confirmed): the lookup returns `null` whenever no provider
record, no allow-listed Taiwan destination or no same-Taipei-date candidate
survives; otherwise it returns the mapped payload of a surviving candidate
that is strictly closer to the event date than every candidate before it in
provider order and at least as close as every one after it (closest wins,
provider order breaks ties).  Every surviving candidate has a resolved
arrival instant, so the comparator's infinite-distance branch for unresolved
arrivals is vacuous, as the claim's sorting clause implies. -/
theorem C10_lookup (flights : List FlightRecord) (eventDate : Int) :
    (survivors flights eventDate = [] → queryFlightAwareStatus flights eventDate = none) ∧
    (∀ p, queryFlightAwareStatus flights eventDate = some p →
      ∃ m l₁ l₂, survivors flights eventDate = l₁ ++ m :: l₂ ∧
        p = mapFlightToStatus m.flight ∧
        (∀ m2 ∈ l₁, matchDiff eventDate m < matchDiff eventDate m2) ∧
        (∀ m2 ∈ l₂, matchDiff eventDate m ≤ matchDiff eventDate m2)) ∧
    (∀ m ∈ survivors flights eventDate, m.ts.isSome = true) := by
  refine ⟨fun hs => ?_, fun p hp => ?_, fun m hm => ?_⟩
  · by_cases hfe : flights.isEmpty <;>
      simp [queryFlightAwareStatus, hfe, hs, selectClosest]
  · by_cases hfe : flights.isEmpty
    · simp [queryFlightAwareStatus, hfe] at hp
    · rw [queryFlightAwareStatus, if_neg (by simpa using hfe)] at hp
      cases hsv : survivors flights eventDate with
      | nil => rw [hsv] at hp; simp [selectClosest] at hp
      | cons m0 rest =>
          rw [hsv] at hp
          simp only [selectClosest, Option.some.injEq] at hp
          obtain ⟨l₁, l₂, he, h1, h2⟩ := selectClosest_split (matchDiff eventDate) m0 rest
          exact ⟨_, l₁, l₂, he, hp.symm, h1, h2⟩
  · simp only [survivors, List.mem_filter, List.mem_map] at hm
    obtain ⟨⟨f0, hf0, rfl⟩, hkey⟩ := hm
    cases hpd : parseDate (arrivalIso f0) with
    | none => simp [isoStringToDateKey, hpd] at hkey
    | some t => simp [hpd]

/-- Witness for C10: specification scenario 5 — two records of CI123 landing
2024-08-15T09:50Z and 2024-08-15T14:00Z (same Taipei day), queried at
2024-08-15T10:00Z: a decomposition exists around the returned record, and the
returned payload is the 09:50Z one. -/
theorem C10_lookup_witness :
    ∃ m l₁ l₂, survivors [exampleFlightA, exampleFlightB] 1723716000000 = l₁ ++ m :: l₂ ∧
      mapFlightToStatus exampleFlightA = mapFlightToStatus m.flight ∧
      (∀ m2 ∈ l₁, matchDiff 1723716000000 m < matchDiff 1723716000000 m2) ∧
      (∀ m2 ∈ l₂, matchDiff 1723716000000 m ≤ matchDiff 1723716000000 m2) :=
  (C10_lookup [exampleFlightA, exampleFlightB] 1723716000000).2.1
    (mapFlightToStatus exampleFlightA) (by decide)

end CalendarApp

